import Mathlib

/-!
Shallow embedding of `src/mrbwrite.js` (kaz0505/mrbwrite_js): a serial
handshake and bytecode-transfer driver for mruby/c boards.

The transport environment is modelled as finite observation traces:
`reads` lists, for each successive `readSync` call, either `some line`
(a complete line arrived within the timeout; the raw line before the
driver's `trim`) or `none` (the read timed out).  `wfails` lists, for
each successive `port.write`, whether the write callback reported an
error (an exhausted list means writes succeed).  JavaScript promise
rejection / `try`-`catch` is embedded as `Except`, with the state
threaded through both outcomes (a rejection does not roll state back).
-/

/-- A payload handed to `port.write`: a JS string command or a raw byte
buffer (the bytecode image). -/
inductive JsData where
  | str (s : String)
  | buf (b : List Nat)
  deriving DecidableEq

/-- Error values thrown by the driver's operations (the messages of the
`Error` objects in the source, abstracted to their kind). -/
inductive JsErr where
  | notConnected
  | writeErr
  | timeout
  | connectErr
  deriving DecidableEq

/-- The environment of one `mrbwrite_main` invocation: the transport's
responses to successive reads, the injected write failures, and whether
opening the port succeeds. -/
structure Env where
  reads : List (Option String)
  wfails : List Bool
  connectOk : Bool
  deriving DecidableEq

/-- Driver + transport state: remaining read outcomes, remaining write
failure injections, `isConnected` flag, whether the OS port handle is
open, whether `open` would succeed, the trace of writes the transport
received, and how many times `port.close` ran. -/
structure St where
  reads : List (Option String)
  wfails : List Bool
  conn : Bool
  portOpen : Bool
  connectOk : Bool
  writes : List JsData
  closes : Nat
  deriving DecidableEq

/-- Decimal digits of `n`, most significant first, via the usual
div/mod recursion; `fuel` bounds the recursion depth (any `fuel > n`
is sufficient). -/
def decDigitsF : Nat → Nat → List Nat
  | 0, _ => []
  | fuel + 1, n => if n < 10 then [n] else decDigitsF fuel (n / 10) ++ [n % 10]

/-- Decimal digits of `n`, most significant first. -/
def decDigits (n : Nat) : List Nat := decDigitsF (n + 1) n

/-- Embedding of JavaScript number-to-string coercion for a nonnegative
integer (as in `"write " + bytecode.length`): the decimal digit string. -/
def natToDec (n : Nat) : String :=
  String.mk ((decDigits n).map (fun d => Char.ofNat (48 + d)))

/-- The numeric value denoted by a digit list, most significant first. -/
def decValue (l : List Nat) : Nat := l.foldl (fun a d => 10 * a + d) 0

/-- `connectSync`: resolves after the port's `open` event sets
`isConnected`, or rejects on the error event. -/
def connectSync (st : St) : Except JsErr Unit × St :=
  if st.connectOk then
    (Except.ok (), { st with conn := true, portOpen := true })
  else
    (Except.error JsErr.connectErr, st)

/-- `writeSync(data)`: rejects when not connected; otherwise calls
`port.write` whose callback may report an error (next `wfails` entry). -/
def writeSync (d : JsData) (st : St) : Except JsErr Unit × St :=
  if st.conn = false then
    (Except.error JsErr.notConnected, st)
  else
    match st.wfails with
    | [] => (Except.ok (), { st with writes := st.writes ++ [d] })
    | f :: rest =>
      if f then
        (Except.error JsErr.writeErr, { st with wfails := rest })
      else
        (Except.ok (), { st with wfails := rest, writes := st.writes ++ [d] })

/-- The whitespace class used by `String.prototype.trim()`, restricted
to the ASCII range (protocol lines are ASCII; the full JS class adds
Unicode space characters irrelevant here). -/
def jsWhitespace (c : Char) : Bool :=
  c = ' ' || c = '\t' || c = '\n' || c = '\r' || c = '\x0b' || c = '\x0c'

/-- Embedding of `String.prototype.trim()`: drop whitespace from both
ends of the character sequence. -/
def jsTrim (s : String) : String :=
  String.mk (((s.data.dropWhile jsWhitespace).reverse.dropWhile jsWhitespace).reverse)

/-- Embedding of `String.prototype.startsWith(p)`: the characters of
`p` are a prefix of the characters of `s`. -/
def jsStartsWith (s p : String) : Bool := p.data.isPrefixOf s.data

/-- `readSync(timeout)`: rejects when not connected; otherwise either the
parser delivers the next line (resolved trimmed) or the timer fires and
the promise rejects with the read-timeout error.  The `timeout` argument
is carried for fidelity; which outcome happens is the environment's
choice, recorded in `reads`. -/
def readSync (timeout : Nat) (st : St) : Except JsErr String × St :=
  if st.conn = false then
    (Except.error JsErr.notConnected, st)
  else
    match st.reads with
    | [] => (Except.error JsErr.timeout, st)
    | none :: rest => (Except.error JsErr.timeout, { st with reads := rest })
    | some l :: rest => (Except.ok (jsTrim l), { st with reads := rest })

/-- `sendCommandSync(command, timeout)`: `writeSync` then `readSync`
inside `try { ... } catch { return "" }` — it always resolves with a
string and never rejects. -/
def sendCommandSync (command : String) (timeout : Nat) (st : St) : String × St :=
  match writeSync (JsData.str command) st with
  | (Except.error _, st1) => ("", st1)
  | (Except.ok _, st1) =>
    match readSync timeout st1 with
    | (Except.error _, st2) => ("", st2)
    | (Except.ok r, st2) => (r, st2)

/-- `disconnectSync`: closes the port when it is open (counting the
close), otherwise resolves immediately; never rejects. -/
def disconnectSync (st : St) : St :=
  if st.portOpen then
    { st with conn := false, portOpen := false, closes := st.closes + 1 }
  else
    st

/-- The banner-probe `do`-`while` loop of `mrbwrite_main` (lines
180-184): send `'\n'` via `sendCommandSync` (its own read result is
discarded and its failures swallowed), then `readSync(5000)` — whose
rejection propagates — and break when the line starts with
`+OK mruby/c`.  `fuel` bounds the recursion; each continuing iteration
consumes at least one `reads` entry, so `reads.length + 1` is enough. -/
def hsLoopF : Nat → St → Except JsErr Unit × St
  | 0, st => (Except.error JsErr.timeout, st)
  | fuel + 1, st =>
    let p := sendCommandSync "\n" 1000 st
    match readSync 5000 p.2 with
    | (Except.error e, st2) => (Except.error e, st2)
    | (Except.ok l, st2) =>
      if jsStartsWith l "+OK mruby/c" then (Except.ok (), st2)
      else hsLoopF fuel st2

/-- The banner-probe loop at sufficient fuel. -/
def hsLoop (st : St) : Except JsErr Unit × St := hsLoopF (st.reads.length + 1) st

/-- Lines 186-201 of `mrbwrite_main`: `version\r\n`, then
`write <N>\r\n`, then the raw image bytes via `writeSync` (rejection
propagates), then `readSync(1000)` (rejection propagates), then a second
`version\r\n`, then `execute\r\n`. -/
def uploadSeq (bc : List Nat) (st : St) : Except JsErr Unit × St :=
  let r1 := sendCommandSync "version\r\n" 1000 st
  let r2 := sendCommandSync ("write " ++ natToDec bc.length ++ "\r\n") 1000 r1.2
  match writeSync (JsData.buf bc) r2.2 with
  | (Except.error e, s) => (Except.error e, s)
  | (Except.ok _, s) =>
    match readSync 1000 s with
    | (Except.error e, s2) => (Except.error e, s2)
    | (Except.ok _, s2) =>
      let r3 := sendCommandSync "version\r\n" 1000 s2
      let r4 := sendCommandSync "execute\r\n" 1000 r3.2
      (Except.ok (), r4.2)

/-- `mrbwrite_main(bytecode, port, baudRate)`: construct the driver,
connect, run the banner probe, run the upload sequence, disconnect —
all inside one `try`; any rejection is caught (and logged) as `some e`,
with no close on that path.  Returns the caught error (if any) and the
final state. -/
def mrbwrite_main (bc : List Nat) (env : Env) : Option JsErr × St :=
  let st0 : St :=
    { reads := env.reads, wfails := env.wfails, conn := false,
      portOpen := false, connectOk := env.connectOk, writes := [], closes := 0 }
  match connectSync st0 with
  | (Except.error e, s) => (some e, s)
  | (Except.ok _, s) =>
    match hsLoop s with
    | (Except.error e, s1) => (some e, s1)
    | (Except.ok _, s1) =>
      match uploadSeq bc s1 with
      | (Except.error e, s2) => (some e, s2)
      | (Except.ok _, s2) => (none, disconnectSync s2)

/-- Characterization of the banner-probe loop on the read trace.  Each
iteration consumes two entries: one by the probe's own (swallowed) read
and one by the checked `readSync(5000)`.  `some k` means the loop breaks
successfully after `k` iterations (the `k`-th checked entry is a line
whose trim starts with `+OK mruby/c`); `none` means a checked entry
times out first (or the trace runs out), which the loop turns into an
uncaught read-timeout rejection. -/
def probeRes : List (Option String) → Option Nat
  | [] => none
  | [_] => none
  | _ :: t :: rest =>
    match t with
    | none => none
    | some l =>
      if jsStartsWith (jsTrim l) "+OK mruby/c" then some 1
      else (probeRes rest).map (· + 1)

/-- The three failure modes of `sendCommandSync`: port not connected,
transport write error, or (write accepted and) the read timing out —
either by an explicit timeout entry or by the trace being exhausted. -/
def sendFails (st : St) : Prop :=
  st.conn = false
    ∨ (st.conn = true ∧ st.wfails.head? = some true)
    ∨ (st.conn = true ∧ st.wfails.head? ≠ some true
        ∧ (st.reads.head? = none ∨ st.reads.head? = some none))

instance (st : St) : Decidable (sendFails st) := by
  unfold sendFails; infer_instance

/-- A state in which `sendCommandSync` succeeds and the line delivered
to it is blank (so the trimmed response is the empty string). -/
def blankSuccess (st : St) : Prop :=
  st.conn = true ∧ st.wfails.head? ≠ some true ∧ st.reads.head? = some (some "")

instance (st : St) : Decidable (blankSuccess st) := by
  unfold blankSuccess; infer_instance

/-- UTF-8 decoding of a byte list to a code-point list, as performed by
`Buffer.prototype.toString('utf8', ...)`: valid sequences decode to
their scalar value, malformed input decodes to U+FFFD.  The replacement
policy is simplified — on a malformed sequence the lead byte alone is
replaced and scanning resumes at the next byte — which can differ from
the maximal-subpart rule only in how many U+FFFD are emitted, never in
whether the output equals an all-ASCII string (every non-ASCII branch
below emits a code point of at least 0x80).  `fuel` at least the list
length is sufficient. -/
def utf8DecodeF : Nat → List Nat → List Nat
  | 0, _ => []
  | _ + 1, [] => []
  | fuel + 1, b :: bs =>
    if b < 0x80 then b :: utf8DecodeF fuel bs
    else if b < 0xC2 then 0xFFFD :: utf8DecodeF fuel bs
    else if b < 0xE0 then
      match bs with
      | b2 :: bs2 =>
        if 0x80 ≤ b2 ∧ b2 < 0xC0 then
          ((b - 0xC0) * 0x40 + (b2 - 0x80)) :: utf8DecodeF fuel bs2
        else 0xFFFD :: utf8DecodeF fuel bs
      | [] => [0xFFFD]
    else if b < 0xF0 then
      match bs with
      | b2 :: b3 :: bs3 =>
        if ((b = 0xE0 ∧ 0xA0 ≤ b2 ∧ b2 < 0xC0)
            ∨ (b = 0xED ∧ 0x80 ≤ b2 ∧ b2 < 0xA0)
            ∨ (b ≠ 0xE0 ∧ b ≠ 0xED ∧ 0x80 ≤ b2 ∧ b2 < 0xC0))
            ∧ 0x80 ≤ b3 ∧ b3 < 0xC0 then
          ((b - 0xE0) * 0x1000 + (b2 - 0x80) * 0x40 + (b3 - 0x80)) :: utf8DecodeF fuel bs3
        else 0xFFFD :: utf8DecodeF fuel bs
      | _ => 0xFFFD :: utf8DecodeF fuel bs
    else if b < 0xF5 then
      match bs with
      | b2 :: b3 :: b4 :: bs4 =>
        if ((b = 0xF0 ∧ 0x90 ≤ b2 ∧ b2 < 0xC0)
            ∨ (b = 0xF4 ∧ 0x80 ≤ b2 ∧ b2 < 0x90)
            ∨ (b ≠ 0xF0 ∧ b ≠ 0xF4 ∧ 0x80 ≤ b2 ∧ b2 < 0xC0))
            ∧ 0x80 ≤ b3 ∧ b3 < 0xC0 ∧ 0x80 ≤ b4 ∧ b4 < 0xC0 then
          ((b - 0xF0) * 0x40000 + (b2 - 0x80) * 0x1000
            + (b3 - 0x80) * 0x40 + (b4 - 0x80)) :: utf8DecodeF fuel bs4
        else 0xFFFD :: utf8DecodeF fuel bs
      | _ => 0xFFFD :: utf8DecodeF fuel bs
    else 0xFFFD :: utf8DecodeF fuel bs

/-- UTF-8 decoding at sufficient fuel. -/
def utf8Decode (l : List Nat) : List Nat := utf8DecodeF l.length l

/-- The CLI's bytecode test (lines 250-254):
`data.length >= 4 && data.toString('utf8', 0, 4) === 'RITE'`.  JS string
equality compares code-unit sequences, so the comparison with `'RITE'`
is the comparison of the decoded code points with `[82, 73, 84, 69]`. -/
def riteCheck (data : List Nat) : Bool :=
  decide (4 ≤ data.length) && decide (utf8Decode (data.take 4) = [82, 73, 84, 69])

/-- The CLI's accepted-bytecode list: file contents passing `riteCheck`,
in command-line order (lines 245-255). -/
def cliBytecodes (fileContents : List (List Nat)) : List (List Nat) :=
  fileContents.filter riteCheck

/-- Lines 257-261: when more than one bytecode was accepted, replace the
list with the single `Buffer.concat` of all of them, in order. -/
def cliCombine (bcs : List (List Nat)) : List (List Nat) :=
  if 1 < bcs.length then [bcs.flatten] else bcs

deriving instance DecidableEq for Except

/-- The wait set up by one `readSync` call (after the connection check):
whether the promise has settled (and with what), whether the `once`
data listener is still registered on the parser, and whether the
timeout timer is still pending. -/
structure RWait where
  settled : Option (Except Unit String)
  listener : Bool
  timerActive : Bool
  deriving DecidableEq

/-- The wait right after `readSync` registers the timer and the `once`
data listener. -/
def initRWait : RWait := { settled := none, listener := true, timerActive := true }

/-- An event that can reach the wait: the parser emits a line, or the
timer fires. -/
inductive REv where
  | data (s : String)
  | timeout
  deriving DecidableEq

/-- One event against the wait, exactly as the source handlers behave.
The timer callback only rejects — it does not remove the data listener.
The data handler clears the timer, removes the listener, and resolves
with the trimmed line.  Settling an already-settled promise is a no-op
(first settlement wins). -/
def rstep (w : RWait) : REv → RWait
  | REv.timeout =>
    if w.timerActive then
      { w with timerActive := false, settled := some (w.settled.getD (Except.error ())) }
    else w
  | REv.data s =>
    if w.listener then
      { settled := some (w.settled.getD (Except.ok (jsTrim s))),
        listener := false, timerActive := false }
    else w

/-- Run a sequence of events against a fresh `readSync` wait. -/
def runEvents (evs : List REv) : RWait := evs.foldl rstep initRWait

/-- The settlement an event produces when it is the first to arrive. -/
def outcomeOf : REv → Except Unit String
  | REv.data s => Except.ok (jsTrim s)
  | REv.timeout => Except.error ()

/-- When connected and with no injected write failure, `sendCommandSync`
writes the command, consumes the next read outcome (if any), and
returns the trimmed delivered line — or `""` on a timeout. -/
lemma sendCommandSync_eq (cmd : String) (t : Nat) (st : St)
    (hc : st.conn = true) (hw : st.wfails = []) :
    sendCommandSync cmd t st =
      ((match st.reads.head? with
        | some (some l) => jsTrim l
        | _ => ""),
       { st with reads := st.reads.tail, writes := st.writes ++ [JsData.str cmd] }) := by
  obtain ⟨rs, wf, c, po, co, w, cl⟩ := st
  simp only at hc hw
  subst hc hw
  cases rs with
  | nil => simp [sendCommandSync, writeSync, readSync]
  | cons a rest => cases a <;> simp [sendCommandSync, writeSync, readSync]

lemma writeSync_frame (d : JsData) (st : St) :
    (writeSync d st).2.conn = st.conn ∧ (writeSync d st).2.portOpen = st.portOpen
      ∧ (writeSync d st).2.closes = st.closes
      ∧ (writeSync d st).2.connectOk = st.connectOk := by
  obtain ⟨rs, wf, c, po, co, w, cl⟩ := st
  cases c
  · simp [writeSync]
  · cases wf with
    | nil => simp [writeSync]
    | cons f rest => cases f <;> simp [writeSync]

lemma readSync_frame (t : Nat) (st : St) :
    (readSync t st).2.conn = st.conn ∧ (readSync t st).2.portOpen = st.portOpen
      ∧ (readSync t st).2.closes = st.closes
      ∧ (readSync t st).2.connectOk = st.connectOk := by
  obtain ⟨rs, wf, c, po, co, w, cl⟩ := st
  cases c
  · simp [readSync]
  · cases rs with
    | nil => simp [readSync]
    | cons a rest => cases a <;> simp [readSync]

lemma sendCommandSync_frame (cmd : String) (t : Nat) (st : St) :
    (sendCommandSync cmd t st).2.conn = st.conn
      ∧ (sendCommandSync cmd t st).2.portOpen = st.portOpen
      ∧ (sendCommandSync cmd t st).2.closes = st.closes
      ∧ (sendCommandSync cmd t st).2.connectOk = st.connectOk := by
  unfold sendCommandSync
  rcases hw : writeSync (JsData.str cmd) st with ⟨e, st1⟩
  obtain ⟨w1, w2, w3, w4⟩ := writeSync_frame (JsData.str cmd) st
  rw [hw] at w1 w2 w3 w4
  cases e with
  | error e => exact ⟨w1, w2, w3, w4⟩
  | ok u =>
    dsimp only
    rcases hr : readSync t st1 with ⟨e2, st2⟩
    obtain ⟨r1, r2, r3, r4⟩ := readSync_frame t st1
    rw [hr] at r1 r2 r3 r4
    cases e2 <;>
      exact ⟨r1.trans w1, r2.trans w2, r3.trans w3, r4.trans w4⟩

lemma hsLoopF_frame : ∀ (fuel : Nat) (st : St),
    (hsLoopF fuel st).2.conn = st.conn ∧ (hsLoopF fuel st).2.portOpen = st.portOpen
      ∧ (hsLoopF fuel st).2.closes = st.closes
      ∧ (hsLoopF fuel st).2.connectOk = st.connectOk := by
  intro fuel
  induction fuel with
  | zero => intro st; simp [hsLoopF]
  | succ n ih =>
    intro st
    simp only [hsLoopF]
    obtain ⟨s1, s2, s3, s4⟩ := sendCommandSync_frame "\n" 1000 st
    rcases hr : readSync 5000 (sendCommandSync "\n" 1000 st).2 with ⟨e, st2⟩
    obtain ⟨r1, r2, r3, r4⟩ := readSync_frame 5000 (sendCommandSync "\n" 1000 st).2
    rw [hr] at r1 r2 r3 r4
    cases e with
    | error e => exact ⟨r1.trans s1, r2.trans s2, r3.trans s3, r4.trans s4⟩
    | ok l =>
      dsimp only
      cases hb : jsStartsWith l "+OK mruby/c" with
      | true =>
        simp only [hb, if_true]
        exact ⟨r1.trans s1, r2.trans s2, r3.trans s3, r4.trans s4⟩
      | false =>
        simp only [hb, Bool.false_eq_true, if_false]
        obtain ⟨i1, i2, i3, i4⟩ := ih st2
        exact ⟨i1.trans (r1.trans s1), i2.trans (r2.trans s2),
               i3.trans (r3.trans s3), i4.trans (r4.trans s4)⟩

/-- Full characterization of the banner-probe loop (at sufficient fuel)
in terms of `probeRes` on the read trace, when connected and with no
injected write failures. -/
lemma hsLoopF_char : ∀ (fuel : Nat) (st : St), st.reads.length < fuel →
    st.conn = true → st.wfails = [] →
    (∀ k, probeRes st.reads = some k →
        hsLoopF fuel st =
          (Except.ok (),
            { st with reads := st.reads.drop (2 * k),
                      writes := st.writes ++ List.replicate k (JsData.str "\n") }))
      ∧ (probeRes st.reads = none → (hsLoopF fuel st).1 = Except.error JsErr.timeout) := by
  intro fuel
  induction fuel with
  | zero => intro st hlen _ _; omega
  | succ n ih =>
    intro st hlen hc hw
    obtain ⟨rs, wf, c, po, co, w, cl⟩ := st
    simp only at hc hw hlen
    subst hc hw
    simp only [hsLoopF]
    rw [sendCommandSync_eq "\n" 1000 _ rfl rfl]
    dsimp only
    cases rs with
    | nil => simp [readSync, probeRes]
    | cons a rest =>
      cases rest with
      | nil => simp [readSync, probeRes]
      | cons b rest2 =>
        cases b with
        | none => simp [readSync, probeRes]
        | some l =>
          simp only [readSync, List.tail_cons, Bool.true_eq_false, if_false, ite_false]
          cases hb : jsStartsWith (jsTrim l) "+OK mruby/c" with
          | true =>
            simp only [hb, if_true]
            constructor
            · intro k hk
              have hk1 : k = 1 := by
                simp [probeRes, hb] at hk
                omega
              subst hk1
              simp [Nat.mul_one, List.drop_succ_cons, List.replicate_succ]
            · intro hnone
              simp [probeRes, hb] at hnone
          | false =>
            simp only [hb, Bool.false_eq_true, if_false]
            have hlen2 : rest2.length < n := by
              simp at hlen
              omega
            obtain ⟨ihs, ihn⟩ :=
              ih ⟨rest2, [], true, po, co, w ++ [JsData.str "\n"], cl⟩ hlen2 rfl rfl
            constructor
            · intro k hk
              have hpr : probeRes (a :: some l :: rest2) = (probeRes rest2).map (· + 1) := by
                simp [probeRes, hb]
              rw [hpr] at hk
              cases hpr2 : probeRes rest2 with
              | none => rw [hpr2] at hk; simp at hk
              | some k' =>
                rw [hpr2] at hk
                simp at hk
                subst hk
                rw [ihs k' hpr2]
                have h2 : 2 * (k' + 1) = 2 * k' + 1 + 1 := by ring
                simp [h2, List.drop_succ_cons, List.replicate_succ, St.mk.injEq]
            · intro hnone
              have hpr : probeRes (a :: some l :: rest2) = (probeRes rest2).map (· + 1) := by
                simp [probeRes, hb]
              rw [hpr] at hnone
              cases hpr2 : probeRes rest2 with
              | none => exact ihn hpr2
              | some k' => rw [hpr2] at hnone; simp at hnone

lemma uploadSeq_frame (bc : List Nat) (st : St) :
    (uploadSeq bc st).2.conn = st.conn ∧ (uploadSeq bc st).2.portOpen = st.portOpen
      ∧ (uploadSeq bc st).2.closes = st.closes
      ∧ (uploadSeq bc st).2.connectOk = st.connectOk := by
  simp only [uploadSeq]
  obtain ⟨a1, a2, a3, a4⟩ := sendCommandSync_frame "version\r\n" 1000 st
  obtain ⟨b1, b2, b3, b4⟩ :=
    sendCommandSync_frame ("write " ++ natToDec bc.length ++ "\r\n") 1000
      (sendCommandSync "version\r\n" 1000 st).2
  rcases hwr : writeSync (JsData.buf bc)
      (sendCommandSync ("write " ++ natToDec bc.length ++ "\r\n") 1000
        (sendCommandSync "version\r\n" 1000 st).2).2 with ⟨e, s⟩
  obtain ⟨c1, c2, c3, c4⟩ := writeSync_frame (JsData.buf bc)
      (sendCommandSync ("write " ++ natToDec bc.length ++ "\r\n") 1000
        (sendCommandSync "version\r\n" 1000 st).2).2
  rw [hwr] at c1 c2 c3 c4
  have d1 := c1.trans (b1.trans a1)
  have d2 := c2.trans (b2.trans a2)
  have d3 := c3.trans (b3.trans a3)
  have d4 := c4.trans (b4.trans a4)
  cases e with
  | error e => exact ⟨d1, d2, d3, d4⟩
  | ok u =>
    dsimp only
    rcases hr : readSync 1000 s with ⟨e2, s2⟩
    obtain ⟨f1, f2, f3, f4⟩ := readSync_frame 1000 s
    rw [hr] at f1 f2 f3 f4
    have g1 := f1.trans d1
    have g2 := f2.trans d2
    have g3 := f3.trans d3
    have g4 := f4.trans d4
    cases e2 with
    | error e2 => exact ⟨g1, g2, g3, g4⟩
    | ok l =>
      dsimp only
      obtain ⟨p1, p2, p3, p4⟩ := sendCommandSync_frame "version\r\n" 1000 s2
      obtain ⟨q1, q2, q3, q4⟩ :=
        sendCommandSync_frame "execute\r\n" 1000 (sendCommandSync "version\r\n" 1000 s2).2
      exact ⟨(q1.trans p1).trans g1, (q2.trans p2).trans g2,
             (q3.trans p3).trans g3, (q4.trans p4).trans g4⟩

/-- Characterization of the upload sequence, when connected and with no
injected write failures.  The first two reads (the acknowledgements of
`version` and `write <N>`) are consumed by `sendCommandSync` and their
failures swallowed; everything hinges on the third read outcome — the
post-transfer acknowledgement read at line 194. -/
lemma uploadSeq_char (bc : List Nat) (st : St) (hc : st.conn = true)
    (hwf : st.wfails = []) :
    ((st.reads[2]? = none ∨ st.reads[2]? = some none) →
        (uploadSeq bc st).1 = Except.error JsErr.timeout
          ∧ (uploadSeq bc st).2.writes =
              st.writes ++ [JsData.str "version\r\n",
                JsData.str ("write " ++ natToDec bc.length ++ "\r\n"), JsData.buf bc])
      ∧ (∀ l, st.reads[2]? = some (some l) →
          uploadSeq bc st =
            (Except.ok (),
              { st with
                  reads := st.reads.drop 5,
                  writes := st.writes ++ [JsData.str "version\r\n",
                    JsData.str ("write " ++ natToDec bc.length ++ "\r\n"), JsData.buf bc,
                    JsData.str "version\r\n", JsData.str "execute\r\n"] })) := by
  obtain ⟨rs, wf, c, po, co, w, cl⟩ := st
  simp only at hc hwf
  subst hc hwf
  simp only [uploadSeq]
  rw [sendCommandSync_eq "version\r\n" 1000 _ rfl rfl]
  dsimp only
  rw [sendCommandSync_eq ("write " ++ natToDec bc.length ++ "\r\n") 1000 _ rfl rfl]
  dsimp only
  simp only [writeSync, Bool.true_eq_false, if_false, ite_false]
  constructor
  · intro hcase
    cases rs with
    | nil => simp [readSync]
    | cons a rest1 =>
      cases rest1 with
      | nil => simp [readSync]
      | cons b rest2 =>
        cases rest2 with
        | nil => simp [readSync]
        | cons cc rest3 =>
          simp only [List.getElem?_cons_succ, List.getElem?_cons_zero] at hcase
          rcases hcase with h | h
          · simp at h
          · have hcc : cc = none := by simpa using h
            subst hcc
            simp [readSync]
  · intro l hl
    cases rs with
    | nil => simp at hl
    | cons a rest1 =>
      cases rest1 with
      | nil => simp at hl
      | cons b rest2 =>
        cases rest2 with
        | nil => simp at hl
        | cons cc rest3 =>
          simp only [List.getElem?_cons_succ, List.getElem?_cons_zero] at hl
          have hcc : cc = some l := by simpa using hl
          subst hcc
          simp only [readSync, List.tail_cons, Bool.true_eq_false, if_false, ite_false]
          rw [sendCommandSync_eq "version\r\n" 1000 _ rfl rfl]
          dsimp only
          rw [sendCommandSync_eq "execute\r\n" 1000 _ rfl rfl]
          dsimp only
          simp [St.mk.injEq, ← List.drop_one, List.drop_drop]

lemma decValue_append_singleton (l : List Nat) (d : Nat) :
    decValue (l ++ [d]) = 10 * decValue l + d := by
  simp [decValue, List.foldl_append]

lemma decDigitsF_ne_nil : ∀ (fuel n : Nat), n < fuel → decDigitsF fuel n ≠ [] := by
  intro fuel
  induction fuel with
  | zero => intro n h; omega
  | succ m ih =>
    intro n _
    by_cases h10 : n < 10 <;> simp [decDigitsF, h10]

/-- The digit list produced for `n` is a correct decimal representation:
all digits below ten, value `n`, and no leading zero (except the single
digit of zero itself). -/
lemma decDigitsF_spec : ∀ (fuel n : Nat), n < fuel →
    ((decDigitsF fuel n).all (fun d => decide (d < 10)) = true
      ∧ decValue (decDigitsF fuel n) = n)
      ∧ ((decDigitsF fuel n).head? ≠ some 0 ∨ decDigitsF fuel n = [0]) := by
  intro fuel
  induction fuel with
  | zero => intro n h; omega
  | succ m ih =>
    intro n h
    by_cases h10 : n < 10
    · refine ⟨⟨by simp [decDigitsF, h10], by simp [decDigitsF, h10, decValue]⟩, ?_⟩
      rcases Nat.eq_zero_or_pos n with h0 | h0
      · right; simp [decDigitsF, h10, h0]
      · left; simp [decDigitsF, h10]; omega
    · have hdiv : n / 10 < n := Nat.div_lt_self (by omega) (by omega)
      have hrec : n / 10 < m := by omega
      obtain ⟨⟨ha, hv⟩, hh⟩ := ih (n / 10) hrec
      have hne := decDigitsF_ne_nil m (n / 10) hrec
      refine ⟨⟨?_, ?_⟩, ?_⟩
      · simp only [decDigitsF, h10, if_false, List.all_append, ha, Bool.true_and,
          List.all_cons, List.all_nil, Bool.and_true, decide_eq_true_eq]
        exact Nat.mod_lt n (by omega)
      · simp only [decDigitsF, h10, if_false, decValue_append_singleton, hv]
        omega
      · left
        simp only [decDigitsF, h10, if_false]
        cases hd : decDigitsF m (n / 10) with
        | nil => exact absurd hd hne
        | cons x t =>
          rcases hh with hh | hh
          · rw [hd] at hh
            simp only [List.cons_append, List.head?_cons]
            simpa using hh
          · rw [hd] at hh
            have : decValue (decDigitsF m (n / 10)) = 0 := by rw [hd, hh]; simp [decValue]
            rw [hv] at this
            omega

lemma decDigits_spec (n : Nat) :
    ((decDigits n).all (fun d => decide (d < 10)) = true ∧ decValue (decDigits n) = n)
      ∧ ((decDigits n).head? ≠ some 0 ∨ decDigits n = [0]) :=
  decDigitsF_spec (n + 1) n (Nat.lt_succ_self n)

/-- If every code point that UTF-8 decoding produces is ASCII, the input
bytes were exactly those code points: multi-byte sequences decode to at
least 0x80 and malformed input decodes to U+FFFD. -/
lemma utf8DecodeF_allAscii : ∀ (fuel : Nat) (l : List Nat), l.length ≤ fuel →
    (∀ c ∈ utf8DecodeF fuel l, c < 128) → utf8DecodeF fuel l = l := by
  intro fuel
  induction fuel with
  | zero =>
    intro l hl _
    cases l with
    | nil => simp [utf8DecodeF]
    | cons b bs => simp at hl
  | succ m ih =>
    intro l hl hall
    cases l with
    | nil => simp [utf8DecodeF]
    | cons b bs =>
      simp only [utf8DecodeF] at hall ⊢
      by_cases h1 : b < 128
      · simp only [h1, if_true] at hall ⊢
        have hbs : utf8DecodeF m bs = bs :=
          ih bs (by simpa using hl) (fun c hc => hall c (List.mem_cons_of_mem b hc))
        rw [hbs]
      · exfalso
        simp only [h1, if_false] at hall
        by_cases h2 : b < 0xC2
        · rw [if_pos h2] at hall
          exact absurd (hall 0xFFFD (List.mem_cons_self _ _)) (by omega)
        · simp only [h2, if_false] at hall
          by_cases h3 : b < 0xE0
          · simp only [h3, if_true] at hall
            cases bs with
            | nil => exact absurd (hall 0xFFFD (by simp)) (by omega)
            | cons b2 bs2 =>
              by_cases h4 : 0x80 ≤ b2 ∧ b2 < 0xC0
              · simp only [h4, and_self, if_true] at hall
                have := hall ((b - 0xC0) * 0x40 + (b2 - 0x80)) (by simp)
                omega
              · simp only [h4, if_false] at hall
                exact absurd (hall 0xFFFD (by simp)) (by omega)
          · simp only [h3, if_false] at hall
            by_cases h5 : b < 0xF0
            · simp only [h5, if_true] at hall
              cases bs with
              | nil => exact absurd (hall 0xFFFD (by simp)) (by omega)
              | cons b2 bs2 =>
                cases bs2 with
                | nil => exact absurd (hall 0xFFFD (by simp)) (by omega)
                | cons b3 bs3 =>
                  by_cases h6 : ((b = 0xE0 ∧ 0xA0 ≤ b2 ∧ b2 < 0xC0)
                      ∨ (b = 0xED ∧ 0x80 ≤ b2 ∧ b2 < 0xA0)
                      ∨ (b ≠ 0xE0 ∧ b ≠ 0xED ∧ 0x80 ≤ b2 ∧ b2 < 0xC0))
                      ∧ 0x80 ≤ b3 ∧ b3 < 0xC0
                  · simp only [h6, if_true] at hall
                    have := hall ((b - 0xE0) * 0x1000 + (b2 - 0x80) * 0x40 + (b3 - 0x80))
                      (by simp)
                    rcases h6 with ⟨h6a | h6a | h6a, _⟩ <;> omega
                  · simp only [h6, if_false] at hall
                    exact absurd (hall 0xFFFD (by simp)) (by omega)
            · simp only [h5, if_false] at hall
              by_cases h7 : b < 0xF5
              · simp only [h7, if_true] at hall
                cases bs with
                | nil => exact absurd (hall 0xFFFD (by simp)) (by omega)
                | cons b2 bs2 =>
                  cases bs2 with
                  | nil => exact absurd (hall 0xFFFD (by simp)) (by omega)
                  | cons b3 bs3 =>
                    cases bs3 with
                    | nil => exact absurd (hall 0xFFFD (by simp)) (by omega)
                    | cons b4 bs4 =>
                      by_cases h8 : ((b = 0xF0 ∧ 0x90 ≤ b2 ∧ b2 < 0xC0)
                          ∨ (b = 0xF4 ∧ 0x80 ≤ b2 ∧ b2 < 0x90)
                          ∨ (b ≠ 0xF0 ∧ b ≠ 0xF4 ∧ 0x80 ≤ b2 ∧ b2 < 0xC0))
                          ∧ 0x80 ≤ b3 ∧ b3 < 0xC0 ∧ 0x80 ≤ b4 ∧ b4 < 0xC0
                      · simp only [h8, if_true] at hall
                        have := hall ((b - 0xF0) * 0x40000 + (b2 - 0x80) * 0x1000
                          + (b3 - 0x80) * 0x40 + (b4 - 0x80)) (by simp)
                        rcases h8 with ⟨h8a | h8a | h8a, _⟩ <;> omega
                      · simp only [h8, if_false] at hall
                        exact absurd (hall 0xFFFD (by simp)) (by omega)
              · simp only [h7, if_false] at hall
                exact absurd (hall 0xFFFD (by simp)) (by omega)

lemma rstep_settled_stable (w : RWait) (e : REv) (h : w.settled.isSome) :
    (rstep w e).settled = w.settled := by
  obtain ⟨s, li, ti⟩ := w
  cases s with
  | none => simp at h
  | some x =>
    cases e with
    | timeout => cases ti <;> simp [rstep]
    | data s => cases li <;> simp [rstep]

lemma foldl_rstep_settled_stable : ∀ (evs : List REv) (w : RWait), w.settled.isSome →
    (evs.foldl rstep w).settled = w.settled := by
  intro evs
  induction evs with
  | nil => intro w _; rfl
  | cons e rest ih =>
    intro w h
    have h1 := rstep_settled_stable w e h
    have h2 : (rstep w e).settled.isSome = true := by rw [h1]; exact h
    simp only [List.foldl_cons]
    rw [ih (rstep w e) h2, h1]

lemma write_cmd_ne_execute (y : String) :
    ("write " ++ y ++ "\r\n" : String) ≠ "execute\r\n" := by
  intro h
  have h2 := congrArg String.data h
  simp [String.data_append] at h2

/-- C1 counterexample: with the transport timing out on every read, the
session sends exactly one probe and then aborts with the uncaught
read-timeout from `readSync(5000)` — the probe is not retried, and the
handshake never gets a chance to match a banner, contradicting the
claim that every timeout during the banner probe is swallowed and
followed by another probe. -/
theorem c1_counterexample :
    (mrbwrite_main [82, 73, 84, 69] ⟨[none, none], [], true⟩).1 = some JsErr.timeout
      ∧ (mrbwrite_main [82, 73, 84, 69] ⟨[none, none], [], true⟩).2.writes
          = [JsData.str "\n"] := by decide

/-- C1 (amended): only the timeout of the probe's own short read inside
`sendCommandSync('\n')` is swallowed; the loop then performs the
5000 ms `readSync`, and a timeout there rejects out of the loop (the
session's only outcome besides success is that timeout error), so the
probe is not retried.  The loop terminates successfully exactly when a
5000 ms read delivers a line whose trim starts with `+OK mruby/c`
(this is `probeRes`, which inspects every second read outcome), and on
success one probe line was written per attempt. -/
theorem c1_amended_banner_probe (st : St) (hc : st.conn = true) (hw : st.wfails = []) :
    ((hsLoop st).1 = Except.ok () ↔ (probeRes st.reads).isSome = true)
      ∧ ((hsLoop st).1 ≠ Except.ok () → (hsLoop st).1 = Except.error JsErr.timeout)
      ∧ ((hsLoop st).1 = Except.ok () →
          (hsLoop st).2.writes =
            st.writes ++ List.replicate ((probeRes st.reads).getD 0) (JsData.str "\n")) := by
  obtain ⟨hs, hn⟩ := hsLoopF_char (st.reads.length + 1) st (Nat.lt_succ_self _) hc hw
  have hrun : hsLoop st = hsLoopF (st.reads.length + 1) st := rfl
  cases hpr : probeRes st.reads with
  | none =>
    have h1 : (hsLoop st).1 = Except.error JsErr.timeout := by rw [hrun]; exact hn hpr
    refine ⟨?_, fun _ => h1, ?_⟩
    · rw [h1]; simp
    · intro h; rw [h1] at h; simp at h
  | some k =>
    have h1 : hsLoop st = (Except.ok (),
        { st with reads := st.reads.drop (2 * k),
                  writes := st.writes ++ List.replicate k (JsData.str "\n") }) := by
      rw [hrun]; exact hs k hpr
    refine ⟨?_, ?_, ?_⟩
    · rw [h1]; simp
    · intro hne; rw [h1] at hne; simp at hne
    · intro _; rw [h1]; simp

/-- C1 witness: a trace whose second read outcome is a banner line. -/
theorem c1_amended_banner_probe_witness :
    (⟨[some "x", some "+OK mruby/c ready"], [], true, true, true, [], 0⟩ : St).conn = true
      ∧ (⟨[some "x", some "+OK mruby/c ready"], [], true, true, true, [], 0⟩ : St).wfails = []
      ∧ (((hsLoop ⟨[some "x", some "+OK mruby/c ready"], [], true, true, true, [], 0⟩).1
            = Except.ok ()
          ↔ (probeRes (⟨[some "x", some "+OK mruby/c ready"], [], true, true, true, [], 0⟩ :
              St).reads).isSome = true)
        ∧ ((hsLoop ⟨[some "x", some "+OK mruby/c ready"], [], true, true, true, [], 0⟩).1
            ≠ Except.ok () →
          (hsLoop ⟨[some "x", some "+OK mruby/c ready"], [], true, true, true, [], 0⟩).1
            = Except.error JsErr.timeout)
        ∧ ((hsLoop ⟨[some "x", some "+OK mruby/c ready"], [], true, true, true, [], 0⟩).1
            = Except.ok () →
          (hsLoop ⟨[some "x", some "+OK mruby/c ready"], [], true, true, true, [], 0⟩).2.writes
            = (⟨[some "x", some "+OK mruby/c ready"], [], true, true, true, [], 0⟩ :
                St).writes
              ++ List.replicate
                  ((probeRes (⟨[some "x", some "+OK mruby/c ready"], [], true, true, true,
                    [], 0⟩ : St).reads).getD 0) (JsData.str "\n"))) :=
  ⟨rfl, rfl, c1_amended_banner_probe _ rfl rfl⟩

/-- C2 counterexample: the handshake's 5000 ms read times out, the
error is caught at the top of `mrbwrite_main`, and the function returns
with the port still open and `close` never invoked — close is not
called on this exit path even though the transport was opened. -/
theorem c2_counterexample :
    (mrbwrite_main [82, 73, 84, 69] ⟨[none, none], [], true⟩).1 ≠ none
      ∧ (mrbwrite_main [82, 73, 84, 69] ⟨[none, none], [], true⟩).2.closes = 0
      ∧ (mrbwrite_main [82, 73, 84, 69] ⟨[none, none], [], true⟩).2.portOpen = true := by
  decide

/-- C2 (amended): `disconnectSync` sits at the end of the single `try`
block, so the port is closed exactly once on runs where every phase
resolves, and is never closed — the OS handle leaks — on any run where
a phase rejects after the port was opened. -/
theorem c2_close_only_on_success (bc : List Nat) (env : Env)
    (hco : env.connectOk = true) :
    ((mrbwrite_main bc env).1 = none →
        (mrbwrite_main bc env).2.closes = 1
          ∧ (mrbwrite_main bc env).2.portOpen = false)
      ∧ ((mrbwrite_main bc env).1 ≠ none →
        (mrbwrite_main bc env).2.closes = 0
          ∧ (mrbwrite_main bc env).2.portOpen = true) := by
  obtain ⟨rds, wfs, cok⟩ := env
  simp only at hco
  subst hco
  simp only [mrbwrite_main]
  rw [show connectSync ⟨rds, wfs, false, false, true, [], 0⟩ =
      (Except.ok (), ⟨rds, wfs, true, true, true, [], 0⟩) from rfl]
  dsimp only
  rcases hh : hsLoop (⟨rds, wfs, true, true, true, [], 0⟩ : St) with ⟨e1, s1⟩
  have F0 := hsLoopF_frame (rds.length + 1) (⟨rds, wfs, true, true, true, [], 0⟩ : St)
  have hh' : hsLoopF (rds.length + 1)
      (⟨rds, wfs, true, true, true, [], 0⟩ : St) = (e1, s1) := hh
  rw [hh'] at F0
  obtain ⟨F1, F2, F3, F4⟩ := F0
  simp only at F1 F2 F3 F4
  cases e1 with
  | error e =>
    dsimp only
    constructor
    · intro h; simp at h
    · intro _; exact ⟨F3, F2⟩
  | ok u =>
    dsimp only
    rcases hu : uploadSeq bc s1 with ⟨e2, s2⟩
    have G0 := uploadSeq_frame bc s1
    rw [hu] at G0
    obtain ⟨G1, G2, G3, G4⟩ := G0
    have G2' : s2.portOpen = true := G2.trans F2
    have G3' : s2.closes = 0 := G3.trans F3
    cases e2 with
    | error e =>
      dsimp only
      constructor
      · intro h; simp at h
      · intro _; exact ⟨G3', G2'⟩
    | ok u2 =>
      dsimp only
      constructor
      · intro _
        constructor
        · simp [disconnectSync, G2', G3']
        · simp [disconnectSync, G2']
      · intro h; exact absurd rfl h

/-- C2 witness: a run in which every phase succeeds closes the port
exactly once. -/
theorem c2_close_only_on_success_witness :
    (⟨[some "x", some "+OK mruby/c ready", some "a", some "b", some "c", some "d", some "e"],
        [], true⟩ : Env).connectOk = true
      ∧ (((mrbwrite_main [82, 73, 84, 69]
            ⟨[some "x", some "+OK mruby/c ready", some "a", some "b", some "c", some "d",
              some "e"], [], true⟩).1 = none →
          (mrbwrite_main [82, 73, 84, 69]
            ⟨[some "x", some "+OK mruby/c ready", some "a", some "b", some "c", some "d",
              some "e"], [], true⟩).2.closes = 1
            ∧ (mrbwrite_main [82, 73, 84, 69]
              ⟨[some "x", some "+OK mruby/c ready", some "a", some "b", some "c", some "d",
                some "e"], [], true⟩).2.portOpen = false)
        ∧ ((mrbwrite_main [82, 73, 84, 69]
            ⟨[some "x", some "+OK mruby/c ready", some "a", some "b", some "c", some "d",
              some "e"], [], true⟩).1 ≠ none →
          (mrbwrite_main [82, 73, 84, 69]
            ⟨[some "x", some "+OK mruby/c ready", some "a", some "b", some "c", some "d",
              some "e"], [], true⟩).2.closes = 0
            ∧ (mrbwrite_main [82, 73, 84, 69]
              ⟨[some "x", some "+OK mruby/c ready", some "a", some "b", some "c", some "d",
                some "e"], [], true⟩).2.portOpen = true)) :=
  ⟨rfl, c2_close_only_on_success [82, 73, 84, 69] _ rfl⟩

/-- C3 counterexample: the handshake succeeds and the image is
streamed, but the post-transfer acknowledgement read (`readSync(1000)`
at line 194) times out; the rejection propagates to the top-level
`catch` and the subsequent `execute` command is never sent —
contradicting the claim that this timeout does not abort the
sequence. -/
theorem c3_counterexample :
    (mrbwrite_main [82, 73, 84, 69, 0, 1]
        ⟨[some "x", some "+OK mruby/c ready", some "v", some "w", none], [], true⟩).1
        = some JsErr.timeout
      ∧ JsData.str "execute\r\n" ∉
          (mrbwrite_main [82, 73, 84, 69, 0, 1]
            ⟨[some "x", some "+OK mruby/c ready", some "v", some "w", none],
             [], true⟩).2.writes := by
  decide

/-- C3 (amended): a timeout of the post-transfer acknowledgement read
aborts the rest of the upload sequence — the writes performed are only
`version\r\n`, `write <N>\r\n` and the raw image, with no `execute`
among them — while the sequence continues through `execute\r\n` exactly
when that read delivers a line. -/
theorem c3_amended_post_transfer (bc : List Nat) (st : St) (l : String)
    (hc : st.conn = true) (hwf : st.wfails = []) :
    ((st.reads[2]? = none ∨ st.reads[2]? = some none) →
        (uploadSeq bc st).1 = Except.error JsErr.timeout
          ∧ (uploadSeq bc st).2.writes = st.writes ++ [JsData.str "version\r\n",
              JsData.str ("write " ++ natToDec bc.length ++ "\r\n"), JsData.buf bc]
          ∧ JsData.str "execute\r\n" ∉ (uploadSeq bc st).2.writes.drop st.writes.length)
      ∧ (st.reads[2]? = some (some l) →
          (uploadSeq bc st).1 = Except.ok ()
            ∧ (uploadSeq bc st).2.writes = st.writes ++ [JsData.str "version\r\n",
                JsData.str ("write " ++ natToDec bc.length ++ "\r\n"), JsData.buf bc,
                JsData.str "version\r\n", JsData.str "execute\r\n"]) := by
  obtain ⟨htimeout, hok⟩ := uploadSeq_char bc st hc hwf
  constructor
  · intro hcase
    obtain ⟨h1, h2⟩ := htimeout hcase
    refine ⟨h1, h2, ?_⟩
    rw [h2, List.drop_left]
    intro hmem
    simp only [List.mem_cons, List.not_mem_nil, or_false] at hmem
    rcases hmem with h | h | h
    · exact absurd (by injection h) (by decide : ¬("execute\r\n" = "version\r\n"))
    · have : ("execute\r\n" : String) = "write " ++ natToDec bc.length ++ "\r\n" := by
        injection h
      exact absurd this.symm (write_cmd_ne_execute (natToDec bc.length))
    · exact JsData.noConfusion h
  · intro hcase
    have h := hok l hcase
    rw [h]
    exact ⟨rfl, rfl⟩

/-- C3 witness: with the third read delivering a line, the upload
sequence completes and `execute` is sent. -/
theorem c3_amended_post_transfer_witness :
    (⟨[some "a", some "b", some "c"], [], true, true, true, [], 0⟩ : St).conn = true
      ∧ (⟨[some "a", some "b", some "c"], [], true, true, true, [], 0⟩ : St).wfails = []
      ∧ (⟨[some "a", some "b", some "c"], [], true, true, true, [], 0⟩ :
          St).reads[2]? = some (some "c")
      ∧ ((uploadSeq [82, 73, 84, 69]
            ⟨[some "a", some "b", some "c"], [], true, true, true, [], 0⟩).1 = Except.ok ()
          ∧ (uploadSeq [82, 73, 84, 69]
              ⟨[some "a", some "b", some "c"], [], true, true, true, [], 0⟩).2.writes
            = (⟨[some "a", some "b", some "c"], [], true, true, true, [], 0⟩ : St).writes
              ++ [JsData.str "version\r\n",
                  JsData.str ("write " ++ natToDec ([82, 73, 84, 69] : List Nat).length
                    ++ "\r\n"),
                  JsData.buf [82, 73, 84, 69], JsData.str "version\r\n",
                  JsData.str "execute\r\n"]) :=
  ⟨rfl, rfl, rfl,
    (c3_amended_post_transfer [82, 73, 84, 69] _ "c" rfl rfl).2 rfl⟩

/-- Every failure mode of `sendCommandSync` — not connected, transport
write error, read timeout — makes it resolve with the empty string. -/
lemma sendFails_blank (cmd : String) (t : Nat) (st : St) (h : sendFails st) :
    (sendCommandSync cmd t st).1 = "" := by
  obtain ⟨rs, wf, c, po, co, w, cl⟩ := st
  rcases h with h | ⟨hc, hw⟩ | ⟨hc, hw, hr⟩
  · simp only at h
    subst h
    simp [sendCommandSync, writeSync]
  · simp only at hc hw
    subst hc
    cases wf with
    | nil => simp at hw
    | cons f rest =>
      have hf : f = true := by simpa using hw
      subst hf
      simp [sendCommandSync, writeSync]
  · simp only at hc hw hr
    subst hc
    cases wf with
    | nil =>
      cases rs with
      | nil => simp [sendCommandSync, writeSync, readSync]
      | cons a rest =>
        rcases hr with hr | hr
        · simp at hr
        · have ha : a = none := by simpa using hr
          subst ha
          simp [sendCommandSync, writeSync, readSync]
    | cons f rest =>
      have hf : f = false := by
        cases f
        · rfl
        · simp at hw
      subst hf
      cases rs with
      | nil => simp [sendCommandSync, writeSync, readSync]
      | cons a rest2 =>
        rcases hr with hr | hr
        · simp at hr
        · have ha : a = none := by simpa using hr
          subst ha
          simp [sendCommandSync, writeSync, readSync]

/-- C4 counterexample: a transport write error, a read timeout, and a
successfully received blank line all make `sendCommandSync` resolve
with the same value `""` — the result carries no indication of which
stage (send or receive) failed, or indeed that anything failed at
all. -/
theorem c4_counterexample :
    (sendCommandSync "version\r\n" 1000
        ⟨[some "ignored"], [true], true, true, true, [], 0⟩).1
      = (sendCommandSync "version\r\n" 1000 ⟨[none], [], true, true, true, [], 0⟩).1
      ∧ (sendCommandSync "version\r\n" 1000 ⟨[none], [], true, true, true, [], 0⟩).1
        = (sendCommandSync "version\r\n" 1000 ⟨[some ""], [], true, true, true, [], 0⟩).1
      ∧ (sendCommandSync "version\r\n" 1000 ⟨[none], [], true, true, true, [], 0⟩).1
        = "" := by
  decide

/-- C4 (amended): `sendCommandSync` indeed never throws — in the model
it is a total function into plain values, every rejection of its two
stages being caught — but on any failure it returns the empty string,
so any two failures (of either stage) produce identical results: the
result does not describe which stage failed. -/
theorem c4_amended_send_receive (cmd : String) (t : Nat) (st st' : St)
    (h : sendFails st) (h' : sendFails st') :
    (sendCommandSync cmd t st).1 = ""
      ∧ (sendCommandSync cmd t st).1 = (sendCommandSync cmd t st').1 := by
  rw [sendFails_blank cmd t st h, sendFails_blank cmd t st' h']
  exact ⟨rfl, rfl⟩

/-- C4 witness: a write-stage failure and a receive-stage timeout. -/
theorem c4_amended_send_receive_witness :
    sendFails ⟨[some "ignored"], [true], true, true, true, [], 0⟩
      ∧ sendFails ⟨[none], [], true, true, true, [], 0⟩
      ∧ ((sendCommandSync "version\r\n" 1000
            ⟨[some "ignored"], [true], true, true, true, [], 0⟩).1 = ""
          ∧ (sendCommandSync "version\r\n" 1000
              ⟨[some "ignored"], [true], true, true, true, [], 0⟩).1
            = (sendCommandSync "version\r\n" 1000
                ⟨[none], [], true, true, true, [], 0⟩).1) :=
  ⟨by decide, by decide,
    c4_amended_send_receive "version\r\n" 1000 _ _ (by decide) (by decide)⟩

/-- C5 counterexample: the timeout path of `readSync` only rejects the
promise; it does not remove the `data` listener, so immediately after a
timeout resolves the wait the listener is still registered and will
consume the next line the parser emits. -/
theorem c5_counterexample :
    (rstep initRWait REv.timeout).settled = some (Except.error ())
      ∧ (rstep initRWait REv.timeout).listener = true := by
  decide

/-- C5 (amended): exactly one of {line delivered, timeout fired}
settles the wait — the first event to arrive, later events never
change the settlement (promise first-settle-wins) — but after a
timeout settles it, the `data` listener is not removed: it stays
registered (and will consume the next emitted line) because the
timeout handler only calls `reject`. -/
theorem c5_amended_single_settlement (e : REv) (evs : List REv) :
    (runEvents (e :: evs)).settled = some (outcomeOf e)
      ∧ (runEvents [REv.timeout]).listener = true := by
  constructor
  · have h1 : (rstep initRWait e).settled = some (outcomeOf e) := by
      cases e <;> simp [rstep, initRWait, outcomeOf]
    have h2 : (rstep initRWait e).settled.isSome = true := by rw [h1]; rfl
    simp only [runEvents, List.foldl_cons]
    rw [foldl_rstep_settled_stable evs (rstep initRWait e) h2, h1]
  · decide

/-- C6 counterexample: in a run where the board answers every read, the
transport receives a second `version\r\n` between the raw image bytes
and `execute\r\n` (line 197 of the source), so the write sequence is
not probe, version, write N, raw bytes, execute with nothing in
between. -/
theorem c6_counterexample :
    (mrbwrite_main [82, 73, 84, 69, 0, 1]
        ⟨[some "x", some "+OK mruby/c ready", some "a", some "b", some "c", some "d",
          some "e"], [], true⟩).2.writes
      = [JsData.str "\n", JsData.str "version\r\n", JsData.str "write 6\r\n",
         JsData.buf [82, 73, 84, 69, 0, 1], JsData.str "version\r\n",
         JsData.str "execute\r\n"]
    ∧ (mrbwrite_main [82, 73, 84, 69, 0, 1]
        ⟨[some "x", some "+OK mruby/c ready", some "a", some "b", some "c", some "d",
          some "e"], [], true⟩).2.writes
      ≠ [JsData.str "\n", JsData.str "version\r\n", JsData.str "write 6\r\n",
         JsData.buf [82, 73, 84, 69, 0, 1], JsData.str "execute\r\n"] := by
  decide

/-- C6 (amended): when the banner probe succeeds after `k` attempts and
the post-transfer read delivers a line, the session completes and the
transport receives exactly: `k` probe lines, `version\r\n`,
`write <N>\r\n`, the `N` raw image bytes, a second `version\r\n`, and
`execute\r\n`, in this order. -/
theorem c6_amended_session_writes (bc : List Nat) (env : Env) (k : Nat) (l : String)
    (hw : env.wfails = []) (hco : env.connectOk = true)
    (hpr : probeRes env.reads = some k)
    (hl : env.reads[2 * k + 2]? = some (some l)) :
    (mrbwrite_main bc env).1 = none
      ∧ (mrbwrite_main bc env).2.writes =
          List.replicate k (JsData.str "\n")
            ++ [JsData.str "version\r\n",
                JsData.str ("write " ++ natToDec bc.length ++ "\r\n"), JsData.buf bc,
                JsData.str "version\r\n", JsData.str "execute\r\n"] := by
  obtain ⟨rds, wfs, cok⟩ := env
  simp only at hw hco hpr hl
  subst hw hco
  simp only [mrbwrite_main]
  rw [show connectSync ⟨rds, [], false, false, true, [], 0⟩ =
      (Except.ok (), ⟨rds, [], true, true, true, [], 0⟩) from rfl]
  dsimp only
  have hchar := (hsLoopF_char (rds.length + 1) (⟨rds, [], true, true, true, [], 0⟩ : St)
      (Nat.lt_succ_self _) rfl rfl).1 k hpr
  have hloop : hsLoop (⟨rds, [], true, true, true, [], 0⟩ : St) =
      (Except.ok (), ⟨rds.drop (2 * k), [], true, true, true,
        [] ++ List.replicate k (JsData.str "\n"), 0⟩) := hchar
  rw [hloop]
  dsimp only
  have hl' : ((⟨rds.drop (2 * k), [], true, true, true,
      [] ++ List.replicate k (JsData.str "\n"), 0⟩ : St)).reads[2]? = some (some l) := by
    dsimp only
    rw [List.getElem?_drop]
    exact hl
  have hup := (uploadSeq_char bc (⟨rds.drop (2 * k), [], true, true, true,
      [] ++ List.replicate k (JsData.str "\n"), 0⟩ : St) rfl rfl).2 l hl'
  rw [hup]
  dsimp only
  refine ⟨rfl, ?_⟩
  simp [disconnectSync]

/-- C6 witness: banner on the second read outcome (one probe attempt),
all later reads answered. -/
theorem c6_amended_session_writes_witness :
    (⟨[some "x", some "+OK mruby/c ready", some "a", some "b", some "c", some "d",
        some "e"], [], true⟩ : Env).wfails = []
      ∧ (⟨[some "x", some "+OK mruby/c ready", some "a", some "b", some "c", some "d",
          some "e"], [], true⟩ : Env).connectOk = true
      ∧ probeRes (⟨[some "x", some "+OK mruby/c ready", some "a", some "b", some "c",
          some "d", some "e"], [], true⟩ : Env).reads = some 1
      ∧ (⟨[some "x", some "+OK mruby/c ready", some "a", some "b", some "c", some "d",
          some "e"], [], true⟩ : Env).reads[2 * 1 + 2]? = some (some "c")
      ∧ ((mrbwrite_main [82, 73, 84, 69, 0, 1]
            ⟨[some "x", some "+OK mruby/c ready", some "a", some "b", some "c", some "d",
              some "e"], [], true⟩).1 = none
          ∧ (mrbwrite_main [82, 73, 84, 69, 0, 1]
              ⟨[some "x", some "+OK mruby/c ready", some "a", some "b", some "c", some "d",
                some "e"], [], true⟩).2.writes =
            List.replicate 1 (JsData.str "\n")
              ++ [JsData.str "version\r\n",
                  JsData.str ("write " ++ natToDec ([82, 73, 84, 69, 0, 1] : List Nat).length
                    ++ "\r\n"),
                  JsData.buf [82, 73, 84, 69, 0, 1], JsData.str "version\r\n",
                  JsData.str "execute\r\n"]) :=
  ⟨rfl, rfl, by decide, by decide,
    c6_amended_session_writes [82, 73, 84, 69, 0, 1] _ 1 "c" rfl rfl (by decide) (by decide)⟩

/-- C7: the upload writes `write <N>\r\n` — with `N` rendered as the
decimal digits of the image's exact byte length, every digit below ten,
their value equal to the length, and no leading zero — immediately
followed by the raw image bytes themselves as a single buffer write
with nothing appended. -/
theorem c7_write_framing (bc : List Nat) (st : St) (hc : st.conn = true)
    (hwf : st.wfails = []) :
    ((uploadSeq bc st).2.writes.take (st.writes.length + 3) =
        st.writes ++ [JsData.str "version\r\n",
          JsData.str ("write " ++ natToDec bc.length ++ "\r\n"), JsData.buf bc])
      ∧ ((decDigits bc.length).all (fun d => decide (d < 10)) = true
          ∧ decValue (decDigits bc.length) = bc.length)
      ∧ ((decDigits bc.length).head? ≠ some 0 ∨ decDigits bc.length = [0]) := by
  refine ⟨?_, (decDigits_spec bc.length).1, (decDigits_spec bc.length).2⟩
  obtain ⟨htimeout, hok⟩ := uploadSeq_char bc st hc hwf
  have hfin : ∀ tail : List JsData,
      (st.writes ++ ([JsData.str "version\r\n",
        JsData.str ("write " ++ natToDec bc.length ++ "\r\n"), JsData.buf bc] ++ tail)).take
          (st.writes.length + 3)
        = st.writes ++ [JsData.str "version\r\n",
            JsData.str ("write " ++ natToDec bc.length ++ "\r\n"), JsData.buf bc] := by
    intro tail
    rw [List.take_append]
    simp
  rcases h2 : st.reads[2]? with _ | o
  · obtain ⟨_, hw⟩ := htimeout (Or.inl h2)
    rw [hw]
    simp
  · cases o with
    | none =>
      obtain ⟨_, hw⟩ := htimeout (Or.inr h2)
      rw [hw]
      simp
    | some l =>
      rw [hok l h2]
      dsimp only
      have := hfin [JsData.str "version\r\n", JsData.str "execute\r\n"]
      simpa using this

/-- C7 witness. -/
theorem c7_write_framing_witness :
    (⟨[some "a", some "b", some "c"], [], true, true, true, [], 0⟩ : St).conn = true
      ∧ (⟨[some "a", some "b", some "c"], [], true, true, true, [], 0⟩ : St).wfails = []
      ∧ (((uploadSeq [82, 73, 84, 69, 9]
            ⟨[some "a", some "b", some "c"], [], true, true, true, [], 0⟩).2.writes.take
              ((⟨[some "a", some "b", some "c"], [], true, true, true, [], 0⟩ :
                St).writes.length + 3) =
          (⟨[some "a", some "b", some "c"], [], true, true, true, [], 0⟩ : St).writes
            ++ [JsData.str "version\r\n",
                JsData.str ("write " ++ natToDec ([82, 73, 84, 69, 9] : List Nat).length
                  ++ "\r\n"),
                JsData.buf [82, 73, 84, 69, 9]])
        ∧ ((decDigits ([82, 73, 84, 69, 9] : List Nat).length).all
              (fun d => decide (d < 10)) = true
            ∧ decValue (decDigits ([82, 73, 84, 69, 9] : List Nat).length)
              = ([82, 73, 84, 69, 9] : List Nat).length)
        ∧ ((decDigits ([82, 73, 84, 69, 9] : List Nat).length).head? ≠ some 0
            ∨ decDigits ([82, 73, 84, 69, 9] : List Nat).length = [0])) :=
  ⟨rfl, rfl, c7_write_framing [82, 73, 84, 69, 9] _ rfl rfl⟩

/-- C8: a file's content passes the CLI's bytecode test
(`data.length >= 4 && data.toString('utf8', 0, 4) === 'RITE'`) exactly
when it is at least 4 bytes long and its first 4 bytes are the ASCII
codes of `R`, `I`, `T`, `E`; and everything in the accepted-bytecode
list handed on toward the transfer passed that test, so rejected
content never reaches the transport. -/
theorem c8_rite_marker (data : List Nat) (fcs : List (List Nat)) (bc : List Nat)
    (hmem : bc ∈ cliBytecodes fcs) :
    (riteCheck data = true ↔ (4 ≤ data.length ∧ data.take 4 = [82, 73, 84, 69]))
      ∧ riteCheck bc = true := by
  constructor
  · unfold riteCheck
    constructor
    · intro h
      simp only [Bool.and_eq_true, decide_eq_true_eq] at h
      obtain ⟨h1, h2⟩ := h
      refine ⟨h1, ?_⟩
      have hall : ∀ c ∈ utf8Decode (data.take 4), c < 128 := by
        rw [h2]
        intro c hc
        simp only [List.mem_cons, List.not_mem_nil, or_false] at hc
        rcases hc with rfl | rfl | rfl | rfl <;> omega
      have hid : utf8DecodeF (data.take 4).length (data.take 4) = data.take 4 :=
        utf8DecodeF_allAscii (data.take 4).length (data.take 4) le_rfl hall
      have h2' : utf8DecodeF (data.take 4).length (data.take 4) = [82, 73, 84, 69] := h2
      exact hid.symm.trans h2'
    · intro h
      obtain ⟨h1, h4⟩ := h
      simp only [Bool.and_eq_true, decide_eq_true_eq]
      refine ⟨h1, ?_⟩
      rw [h4]
      rfl
  · exact (List.mem_filter.mp hmem).2

/-- C8 witness: a content with the `RITE` marker is accepted and is in
the CLI's accepted list; the iff is checked on the same content. -/
theorem c8_rite_marker_witness :
    [82, 73, 84, 69, 7] ∈ cliBytecodes [[82, 73, 84, 69, 7], [0, 1, 2, 3]]
      ∧ ((riteCheck [82, 73, 84, 69, 7] = true ↔
            (4 ≤ ([82, 73, 84, 69, 7] : List Nat).length
              ∧ ([82, 73, 84, 69, 7] : List Nat).take 4 = [82, 73, 84, 69]))
          ∧ riteCheck [82, 73, 84, 69, 7] = true) :=
  ⟨by decide, c8_rite_marker [82, 73, 84, 69, 7] [[82, 73, 84, 69, 7], [0, 1, 2, 3]]
    [82, 73, 84, 69, 7] (by decide)⟩

/-- C9: with two or more accepted images, the CLI replaces the list by
the single `Buffer.concat` of all of them; that combined image is the
byte-for-byte concatenation in list order — its length is the sum of
the individual lengths, and for each position `i` the flattening splits
as everything before image `i`, then image `i`, then everything after
it, so every byte of an earlier image precedes every byte of a later
one. -/
theorem c9_concatenation (imgs : List (List Nat)) (h2 : 2 ≤ imgs.length) (i : Nat)
    (hi : i < imgs.length) :
    cliCombine imgs = [imgs.flatten]
      ∧ imgs.flatten.length = (imgs.map List.length).sum
      ∧ imgs.flatten =
          (imgs.take i).flatten ++ (imgs.drop i).headD [] ++ (imgs.drop (i + 1)).flatten := by
  refine ⟨?_, List.length_flatten imgs, ?_⟩
  · unfold cliCombine
    rw [if_pos (by omega)]
  · have hsplit : imgs = imgs.take i ++ imgs[i] :: imgs.drop (i + 1) := by
      conv_lhs => rw [← List.take_append_drop i imgs]
      rw [List.drop_eq_getElem_cons hi]
    have hhead : (imgs.drop i).headD [] = imgs[i] := by
      rw [List.drop_eq_getElem_cons hi]
      rfl
    rw [hhead]
    calc imgs.flatten
        = (imgs.take i ++ imgs[i] :: imgs.drop (i + 1)).flatten := by rw [← hsplit]
      _ = (imgs.take i).flatten ++ imgs[i] ++ (imgs.drop (i + 1)).flatten := by
            rw [List.flatten_append, List.flatten_cons, List.append_assoc]

/-- C9 witness: two images of lengths 1 and 2. -/
theorem c9_concatenation_witness :
    2 ≤ ([[1], [2, 3]] : List (List Nat)).length
      ∧ 1 < ([[1], [2, 3]] : List (List Nat)).length
      ∧ (cliCombine [[1], [2, 3]] = [([[1], [2, 3]] : List (List Nat)).flatten]
          ∧ ([[1], [2, 3]] : List (List Nat)).flatten.length
            = (([[1], [2, 3]] : List (List Nat)).map List.length).sum
          ∧ ([[1], [2, 3]] : List (List Nat)).flatten =
              (([[1], [2, 3]] : List (List Nat)).take 1).flatten
                ++ (([[1], [2, 3]] : List (List Nat)).drop 1).headD []
                ++ (([[1], [2, 3]] : List (List Nat)).drop 2).flatten) :=
  ⟨by decide, by decide, c9_concatenation [[1], [2, 3]] (by decide) 1 (by decide)⟩

/-- C10 (implicit): `sendCommandSync` always resolves — in the model it
is a total function into plain string results — and on every failure
mode (port not connected, transport write error, read timeout) it
resolves with `""`, the same value it resolves with when a blank line
is genuinely received, so a caller cannot distinguish any failure from
a successfully received blank response line. -/
theorem c10_all_failures_blank (cmd : String) (t : Nat) (st st' : St)
    (h : sendFails st) (h' : blankSuccess st') :
    (sendCommandSync cmd t st).1 = ""
      ∧ (sendCommandSync cmd t st).1 = (sendCommandSync cmd t st').1 := by
  have hb := sendFails_blank cmd t st h
  have hb' : (sendCommandSync cmd t st').1 = "" := by
    obtain ⟨rs, wf, c, po, co, w, cl⟩ := st'
    obtain ⟨hc, hw, hr⟩ := h'
    simp only at hc hw hr
    subst hc
    cases wf with
    | nil =>
      cases rs with
      | nil => simp at hr
      | cons a rest =>
        have ha : a = some "" := by simpa using hr
        subst ha
        have htr : jsTrim "" = "" := by decide
        simp [sendCommandSync, writeSync, readSync, htr]
    | cons f rest =>
      have hf : f = false := by
        cases f
        · rfl
        · simp at hw
      subst hf
      cases rs with
      | nil => simp at hr
      | cons a rest2 =>
        have ha : a = some "" := by simpa using hr
        subst ha
        have htr : jsTrim "" = "" := by decide
        simp [sendCommandSync, writeSync, readSync, htr]
  rw [hb, hb']
  exact ⟨rfl, rfl⟩

/-- C10 witness: a read timeout and a received blank line. -/
theorem c10_all_failures_blank_witness :
    sendFails ⟨[none], [], true, true, true, [], 0⟩
      ∧ blankSuccess ⟨[some ""], [], true, true, true, [], 0⟩
      ∧ ((sendCommandSync "version\r\n" 1000 ⟨[none], [], true, true, true, [], 0⟩).1 = ""
          ∧ (sendCommandSync "version\r\n" 1000 ⟨[none], [], true, true, true, [], 0⟩).1
            = (sendCommandSync "version\r\n" 1000
                ⟨[some ""], [], true, true, true, [], 0⟩).1) :=
  ⟨by decide, by decide,
    c10_all_failures_blank "version\r\n" 1000 _ _ (by decide) (by decide)⟩
